import Mathlib

/-!
Verification of the context-propagation core of the nest-me-up/common library.

The TypeScript source is shallowly embedded: JavaScript objects used as
string-keyed maps (request headers, the header-name table, the identity bag)
become association lists with first-match lookup; JavaScript string
truthiness (a string is falsy iff it is empty, a missing property is falsy)
is modelled explicitly; the fresh identifiers produced by uuid.v4 become
explicit parameters; the ambient AsyncLocalStorage binding becomes an
explicit value threaded through the definitions.
-/

/-- A JavaScript object used as a string→string map (headers, bags, tables). -/
abbrev HMap := List (String × String)

/-- Property read on a JS object: value of the first entry with the key. -/
def hget : HMap → String → Option String
  | [], _ => none
  | (k', v) :: rest, k => if k' = k then some v else hget rest k

/-- Property assignment on a JS object: replace the entry in place if the key
exists, otherwise append a new entry (JS insertion-order semantics). -/
def hset : HMap → String → String → HMap
  | [], k, v => [(k, v)]
  | (k', v') :: rest, k, v =>
    if k' = k then (k, v) :: rest else (k', v') :: hset rest k v

/-- JS truthiness of an optional string property: present and non-empty. -/
def jsTruthy : Option String → Bool
  | some s => s ≠ ""
  | none => false

/-- JS truthiness of an object value: objects are always truthy, even empty
ones. Used where the source tests an object with a boolean guard. -/
def jsObjectTruthy (_ : HMap) : Bool := true

/-- The store held by the AsyncLocalStorage: the `ContextData` interface of
context.service.ts. The `ContextInfo` bag is a string-keyed object (its shape
is extensible by configuration), the storage map likewise. -/
structure ContextData where
  contextInfo : HMap
  contextStorage : HMap
deriving DecidableEq, Repr

/-- The ambient AsyncLocalStorage binding: the store of the innermost active
scope, or `none` outside any scope (`getStore()` returning undefined). -/
abbrev Amb := Option ContextData

/-- ContextService.getContext:
`(this.asyncLocalStorage.getStore()?.contextInfo as T) ?? ({} as T)`. -/
def ContextService.getContext (amb : Amb) : HMap :=
  match amb with
  | some d => d.contextInfo
  | none => []

/-- ContextService.runWithContext: builds a fresh store with the given bag and
an empty storage map, runs the callback with that store as the ambient
binding, and (per `AsyncLocalStorage.run`) restores the previous binding when
the callback returns. The callback is modelled as a function of the ambient
binding returning its result together with the binding as it left it. -/
def ContextService.runWithContext {R : Type} (contextInfo : HMap)
    (callback : Amb → R × Amb) (amb : Amb) : R × Amb :=
  let newContext : ContextData := { contextInfo := contextInfo, contextStorage := [] }
  let r := (callback (some newContext)).1
  (r, amb)

/-- Builds the ambient binding of an open scope holding the given bag. -/
def ambWith (bag : HMap) : Amb :=
  some { contextInfo := bag, contextStorage := [] }

/-- The fixed default header-name table of context-middleware.ts and
http-headers.config: five entries, one per wire-mapped identity field. -/
def DEFAULT_HEADER_NAMES : HMap :=
  [("transactionId", "x-transaction-id"),
   ("sessionId", "x-session-id"),
   ("userId", "x-user-id"),
   ("tenantId", "x-tenant-id"),
   ("projectId", "x-project-id")]

/-- Deletes every entry with the given key. -/
def hremove : HMap → String → HMap
  | [], _ => []
  | (k', v) :: rest, k =>
    if k' = k then hremove rest k else (k', v) :: hremove rest k

/-- JS object spread of two objects, second over first: keys of the
first in order with values overridden by the second where shared, then the
remaining keys of the second in order. -/
def overlay : HMap → HMap → HMap
  | [], cfg => cfg
  | (k, v) :: rest, cfg => (k, (hget cfg k).getD v) :: overlay rest (hremove cfg k)

/-- getContextHeaderNames of http-headers.config (also inlined in the
ContextMiddleware constructor): defaults overlaid with the configured
context.headerNames object; an undefined configuration value spreads as the
empty object, modelled by the empty list. -/
def getContextHeaderNames (configHeaderNames : HMap) : HMap :=
  overlay DEFAULT_HEADER_NAMES configHeaderNames

/-- Property access used as an index, as in
`req.headers[this.contextKeyToHeaderName.transactionId]`: a missing table
entry reads as undefined, which stringifies to "undefined" as a key. -/
def tableName (table : HMap) (k : String) : String :=
  (hget table k).getD "undefined"

/-- The `(req.headers[name] as string) || v4()` pattern: the header value if
present and non-empty, else the freshly generated identifier. -/
def extractOr (headers : HMap) (headerName fresh : String) : String :=
  match hget headers headerName with
  | some s => if s = "" then fresh else s
  | none => fresh

/-- The extraction loop of ContextMiddleware.createContextInfo: for every
table entry whose header is present with a truthy (non-empty) value, copy the
header value into the bag under the context key. -/
def ContextMiddleware.contextInfoLoop (headers : HMap) : HMap → HMap → HMap
  | [], acc => acc
  | (key, headerName) :: rest, acc =>
    let acc' := match hget headers headerName with
      | some s => if s = "" then acc else hset acc key s
      | none => acc
    ContextMiddleware.contextInfoLoop headers rest acc'

/-- ContextMiddleware.createContextInfo: seeds the bag with the three
always-set identifiers, then runs the header-extraction loop over the whole
table (which may overwrite the seeds when the table maps their keys). -/
def ContextMiddleware.createContextInfo (table headers : HMap)
    (transactionId sessionId internalTransactionId : String) : HMap :=
  ContextMiddleware.contextInfoLoop headers table
    [("transactionId", transactionId),
     ("sessionId", sessionId),
     ("internalTransactionId", internalTransactionId)]

/-- Everything observable that ContextMiddleware.use produces: the resolved
identifiers, the mutated request and response headers, and the bag handed to
runWithContext around next(). -/
structure MiddlewareResult where
  transactionId : String
  sessionId : String
  internalTransactionId : String
  reqHeaders : HMap
  resHeaders : HMap
  contextInfo : HMap
deriving DecidableEq, Repr

/-- ContextMiddleware.use. The three uuid.v4 results are explicit
parameters; `resSupportsHeader` models the guard that the response object has
a callable header method (the echo is skipped otherwise); the header writes
cannot throw in this model, so the try/catch is invisible. -/
def ContextMiddleware.use (table reqHeaders0 : HMap)
    (resSupportsHeader : Bool) (resHeaders0 : HMap)
    (freshTxn freshSess freshInternal : String) : MiddlewareResult :=
  let hTxn := tableName table "transactionId"
  let hSess := tableName table "sessionId"
  let transactionId := extractOr reqHeaders0 hTxn freshTxn
  let sessionId := extractOr reqHeaders0 hSess freshSess
  let reqHeaders := hset (hset reqHeaders0 hTxn transactionId) hSess sessionId
  let resHeaders :=
    if resSupportsHeader then hset (hset resHeaders0 hTxn transactionId) hSess sessionId
    else resHeaders0
  let internalTransactionId := freshInternal
  let contextInfo := ContextMiddleware.createContextInfo table reqHeaders
      transactionId sessionId internalTransactionId
  { transactionId := transactionId, sessionId := sessionId,
    internalTransactionId := internalTransactionId,
    reqHeaders := reqHeaders, resHeaders := resHeaders,
    contextInfo := contextInfo }

/-- An axios client instance as configured by HttpClientService.getHttpClient:
when inter-service communication is enabled it carries the bag resolved at
creation time (closed over by the request interceptor), and we record whether
that resolution read the Context Store. -/
structure HttpClient where
  resolvedContextInfo : Option HMap
  contextReadOccurred : Bool
deriving DecidableEq, Repr

/-- HttpClientService.getHttpClient: `contextInfo || this.contextService.getContext()`
evaluated in the body of getHttpClient, before any request is sent. A
supplied bag is an object and hence truthy, so it short-circuits the store
read. With inter-service communication disabled no interceptor is installed
and nothing is resolved. -/
def HttpClientService.getHttpClient (contextInfo : Option HMap)
    (interServiceCommunication : Bool) (amb : Amb) : HttpClient :=
  if interServiceCommunication then
    match contextInfo with
    | some bag => { resolvedContextInfo := some bag, contextReadOccurred := false }
    | none =>
      { resolvedContextInfo := some (ContextService.getContext amb),
        contextReadOccurred := true }
  else { resolvedContextInfo := none, contextReadOccurred := false }

/-- The request interceptor of getHttpClient: for every table entry whose
context key is truthy (present, non-empty) in the bag, set the outgoing
header to that value. -/
def injectHeaders (bag : HMap) : HMap → HMap → HMap
  | [], headers => headers
  | (key, headerName) :: rest, headers =>
    let headers' := match hget bag key with
      | some s => if s = "" then headers else hset headers headerName s
      | none => headers
    injectHeaders bag rest headers'

/-- Sending a request through the configured client: the interceptor (when
installed) injects from the bag resolved at creation time; the ambient scope
at send time is never consulted, which is why the parameter is unused. -/
def HttpClient.send (client : HttpClient) (table : HMap) (_ambAtSend : Amb)
    (headers0 : HMap) : HMap :=
  match client.resolvedContextInfo with
  | some bag => injectHeaders bag table headers0
  | none => headers0

/-- Modelled from the spec (for refinement comparison only, not from the
source): the claimed policy that the bag is resolved at request-send time,
the explicitly supplied bag taking precedence over the scope ambient at send
time. -/
def sendHeadersClaimedSendTime (table : HMap) (contextInfo : Option HMap)
    (ambAtSend : Amb) (headers0 : HMap) : HMap :=
  let bag := match contextInfo with
    | some b => b
    | none => ContextService.getContext ambAtSend
  injectHeaders bag table headers0

/-- Scheme check of the WHATWG URL constructor used by
`new URL(error.config?.url || '')`: the input must start with a scheme
(letter, then letters, digits, plus, minus or dot) followed by a colon,
otherwise the constructor throws ERR_INVALID_URL. -/
def hasSchemeColon : List Char → Bool
  | [] => false
  | ':' :: _ => true
  | c :: rest => (c.isAlphanum || c = '+' || c = '-' || c = '.') && hasSchemeColon rest

/-- Whether `new URL` accepts the string (it must be an absolute URL). -/
def urlIsParsable (s : String) : Bool :=
  match s.toList with
  | [] => false
  | c :: rest => c.isAlpha && hasSchemeColon rest

/-- The request configuration carried by an axios error. -/
structure AxiosConfig where
  url : Option String
  method : Option String
  headers : HMap
  data : Option String
deriving DecidableEq, Repr

/-- The response attached to an axios error, when one was received. -/
structure AxiosResponseInfo where
  config : AxiosConfig
  status : Nat
  statusText : String
  headers : HMap
  data : Option String
deriving DecidableEq, Repr

/-- An axios failure value as handleAxiosError receives it. -/
structure AxiosError where
  code : Option String
  status : Option Nat
  message : String
  name : String
  stack : Option String
  config : Option AxiosConfig
  response : Option AxiosResponseInfo
deriving DecidableEq, Repr

/-- The config part of the sanitized object: request body replaced by the
redaction marker. -/
structure SanitizedConfig where
  url : Option String
  method : Option String
  headers : Option HMap
  data : String
deriving DecidableEq, Repr

/-- The response.config part of the sanitized object (note: its data field is
dropped, not copied). -/
structure SanitizedResponseConfig where
  url : Option String
  method : Option String
  headers : HMap
deriving DecidableEq, Repr

/-- The response part of the sanitized object. -/
structure SanitizedResponse where
  config : SanitizedResponseConfig
  status : Nat
  statusText : String
  headers : HMap
  data : Option String
deriving DecidableEq, Repr

/-- The plain object handleAxiosError builds in place of the original error
when a response is present. -/
structure SanitizedError where
  code : Option String
  status : Option Nat
  message : String
  name : String
  stack : Option String
  config : SanitizedConfig
  response : SanitizedResponse
deriving DecidableEq, Repr

/-- What handleAxiosError delivers to the caller: a rejection with the
sanitized object, a rejection with the (mutated) original error, or a throw
raised by the URL constructor inside the handler itself. -/
inductive HandlerOutcome where
  | threw (message : String)
  | rejectSanitized (s : SanitizedError)
  | rejectOriginal (e : AxiosError)
deriving DecidableEq, Repr

/-- HttpClientService.handleAxiosError. Logging calls are severity selection
only and have no bearing on the delivered value, so they are omitted; the
URL parse on entry, the in-place status mutation and the two rejection
branches are modelled exactly. -/
def HttpClientService.handleAxiosError (error : AxiosError) : HandlerOutcome :=
  let urlInput := (error.config.bind AxiosConfig.url).getD ""
  if urlIsParsable urlInput then
    let error := { error with status := error.response.map AxiosResponseInfo.status }
    match error.response with
    | some resp =>
      HandlerOutcome.rejectSanitized
        { code := error.code
          status := error.status
          message := error.message
          name := error.name
          stack := error.stack
          config :=
            { url := error.config.bind AxiosConfig.url
              method := error.config.bind AxiosConfig.method
              headers := error.config.map AxiosConfig.headers
              data := "<REDACTED>" }
          response :=
            { config :=
                { url := resp.config.url
                  method := resp.config.method
                  headers := resp.config.headers }
              status := resp.status
              statusText := resp.statusText
              headers := resp.headers
              data := resp.data } }
    | none => HandlerOutcome.rejectOriginal error
  else HandlerOutcome.threw "Invalid URL"

/-- The sentinel bag the CronService means to synthesize when no context is
ambient at schedule-registration time. -/
def cronPlaceholderBag (freshTxn freshInternal : String) : HMap :=
  [("tenantId", "unknown"),
   ("transactionId", freshTxn),
   ("internalTransactionId", freshInternal),
   ("projectId", "unknown"),
   ("sessionId", "unknown")]

/-- CronService.schedule, projected to the bag every firing of the wrapped
callback runs inside (the bag passed to runWithContext around the callback).
The guard `if (!contextInfo)` tests the object returned by getContext, and
objects are always truthy in JS, so the placeholder branch is reachable only
if that truthiness check fails. -/
def CronService.schedule (amb : Amb) (freshTxn freshInternal : String) : HMap :=
  let contextInfo := ContextService.getContext amb
  if jsObjectTruthy contextInfo then contextInfo
  else cronPlaceholderBag freshTxn freshInternal

/-- Modelled from the spec: the continuation capture of AsyncLocalStorage
(async_hooks), which is part of the Node runtime and not of this repository.
A task records the store binding captured when it was created; resuming the
task re-enters that binding regardless of what is currently ambient. -/
structure TaskRec where
  captured : Amb
deriving DecidableEq, Repr

/-- A task spawned inside runWithContext captures the scope opened with the
given bag. -/
def spawnInScope (bag : HMap) : TaskRec :=
  { captured := ambWith bag }

/-- Modelled from the spec: single-threaded cooperative interleaving. The
schedule names which task runs at each step; a step re-enters the resumed
task binding (overwriting whatever an unrelated task left ambient) and the
task observes getContext there. The trace records each observation. -/
def schedRun : Amb → List TaskRec → List Nat → List (Nat × HMap)
  | _, _, [] => []
  | cur, tasks, i :: rest =>
    match tasks[i]? with
    | none => schedRun cur tasks rest
    | some t =>
      let cur' := t.captured
      (i, ContextService.getContext cur') :: schedRun cur' tasks rest


theorem hget_hset (h : HMap) (k v k' : String) :
    hget (hset h k v) k' = if k = k' then some v else hget h k' := by
  induction h with
  | nil => by_cases hk : k = k' <;> simp [hset, hget, hk]
  | cons p rest ih =>
    obtain ⟨pk, pv⟩ := p
    by_cases hpk : pk = k <;> by_cases hk : k = k' <;>
      simp_all [hset, hget]

theorem hget_mem {h : HMap} {k v : String} (hh : hget h k = some v) : (k, v) ∈ h := by
  induction h with
  | nil => simp [hget] at hh
  | cons p rest ih =>
    obtain ⟨pk, pv⟩ := p
    by_cases hp : pk = k
    · subst hp
      simp [hget] at hh
      simp [hh]
    · simp [hget, hp] at hh
      exact List.mem_cons_of_mem _ (ih hh)

theorem hget_hremove {cfg : HMap} {k0 k : String} (h : k0 ≠ k) :
    hget (hremove cfg k0) k = hget cfg k := by
  induction cfg with
  | nil => rfl
  | cons p rest ih =>
    obtain ⟨pk, pv⟩ := p
    by_cases hp : pk = k0
    · subst hp
      simpa [hremove, hget, h] using ih
    · by_cases hk : pk = k <;> simp [hremove, hget, hp, hk, ih, Ne.symm h]

theorem hget_overlay (b c : HMap) (k : String) :
    hget (overlay b c) k = (hget c k).elim (hget b k) some := by
  induction b generalizing c with
  | nil =>
    simp only [overlay, hget]
    cases hget c k <;> simp
  | cons p rest ih =>
    obtain ⟨pk, pv⟩ := p
    by_cases hp : pk = k
    · subst hp
      simp only [overlay, hget, if_pos rfl]
      cases hget c pk <;> simp
    · simp only [overlay, hget, if_neg hp]
      rw [ih (hremove c pk), hget_hremove hp]

theorem contextInfoLoop_hget_of_none (headers : HMap) {table : HMap} {k : String}
    (hnone : hget table k = none) (acc : HMap) :
    hget (ContextMiddleware.contextInfoLoop headers table acc) k = hget acc k := by
  induction table generalizing acc with
  | nil => rfl
  | cons p rest ih =>
    obtain ⟨key, hn⟩ := p
    have hkey : key ≠ k := by
      intro hcontra
      simp [hget, hcontra] at hnone
    have hrest : hget rest k = none := by
      simpa [hget, hkey] using hnone
    simp only [ContextMiddleware.contextInfoLoop]
    cases hv : hget headers hn with
    | none => exact ih hrest acc
    | some s =>
      by_cases hs : s = ""
      · simp only [hs, if_pos rfl]
        exact ih hrest acc
      · simp only [if_neg hs]
        rw [ih hrest, hget_hset]
        simp [hkey]

theorem injectHeaders_hget_of_not_name (bag : HMap) {table : HMap} (h0 : HMap)
    {hname : String} (h : ∀ p ∈ table, p.2 ≠ hname) :
    hget (injectHeaders bag table h0) hname = hget h0 hname := by
  induction table generalizing h0 with
  | nil => rfl
  | cons p rest ih =>
    obtain ⟨key, hn⟩ := p
    have hhn : hn ≠ hname := h (key, hn) (List.mem_cons_self _ _)
    have hrest : ∀ p ∈ rest, p.2 ≠ hname := fun p hp => h p (List.mem_cons_of_mem _ hp)
    simp only [injectHeaders]
    cases hv : hget bag key with
    | none => exact ih h0 hrest
    | some s =>
      by_cases hs : s = ""
      · simp only [hs, if_pos rfl]
        exact ih h0 hrest
      · simp only [if_neg hs]
        rw [ih _ hrest, hget_hset]
        simp [hhn]

theorem injectHeaders_hget_present (bag : HMap) {table : HMap} (h0 : HMap)
    {k hname s : String}
    (hnodup : (table.map Prod.snd).Nodup)
    (ht : hget table k = some hname)
    (hb : hget bag k = some s) (hs : s ≠ "") :
    hget (injectHeaders bag table h0) hname = some s := by
  induction table generalizing h0 with
  | nil => simp [hget] at ht
  | cons p rest ih =>
    obtain ⟨key, hn⟩ := p
    simp only [List.map_cons, List.nodup_cons] at hnodup
    by_cases hkey : key = k
    · subst hkey
      simp [hget] at ht
      subst ht
      simp only [injectHeaders, hb, if_neg hs]
      rw [injectHeaders_hget_of_not_name bag _ (fun p hp => by
        intro hcontra
        exact hnodup.1 (hcontra ▸ List.mem_map_of_mem Prod.snd hp))]
      rw [hget_hset]
      simp
    · simp only [hget, if_neg hkey] at ht
      simp only [injectHeaders]
      cases hv : hget bag key with
      | none => exact ih _ hnodup.2 ht
      | some s' =>
        by_cases hs' : s' = ""
        · simp only [hs', if_pos rfl]
          exact ih _ hnodup.2 ht
        · simp only [if_neg hs']
          exact ih _ hnodup.2 ht

theorem injectHeaders_hget_absent (bag : HMap) {table : HMap} (h0 : HMap)
    {k hname : String}
    (hnodup : (table.map Prod.snd).Nodup)
    (ht : hget table k = some hname)
    (hb : hget bag k = none) :
    hget (injectHeaders bag table h0) hname = hget h0 hname := by
  induction table generalizing h0 with
  | nil => simp [hget] at ht
  | cons p rest ih =>
    obtain ⟨key, hn⟩ := p
    simp only [List.map_cons, List.nodup_cons] at hnodup
    by_cases hkey : key = k
    · subst hkey
      simp [hget] at ht
      subst ht
      simp only [injectHeaders, hb]
      exact injectHeaders_hget_of_not_name bag _ (fun p hp => by
        intro hcontra
        exact hnodup.1 (hcontra ▸ List.mem_map_of_mem Prod.snd hp))
    · simp only [hget, if_neg hkey] at ht
      have hne : hn ≠ hname := by
        intro hcontra
        exact hnodup.1 (hcontra ▸ List.mem_map_of_mem Prod.snd (hget_mem ht))
      simp only [injectHeaders]
      cases hv : hget bag key with
      | none => exact ih h0 hnodup.2 ht
      | some s' =>
        by_cases hs' : s' = ""
        · simp only [hs', if_pos rfl]
          exact ih h0 hnodup.2 ht
        · simp only [if_neg hs']
          rw [ih (hset h0 hn s') hnodup.2 ht, hget_hset]
          simp [hne]

/-- C1: for any IdentityBag b, runWithContext(b, () => getContext()) returns
a value deep-equal to b, and nested runWithContext calls shadow correctly:
inside the inner callback getContext returns the inner bag, once the inner
call returns the outer bag is ambient again, and after the outer call the
previous binding (or absence) is restored. -/
theorem contextService_runWithContext_roundtrip :
    (∀ (b : HMap) (amb : Amb),
        ContextService.runWithContext b (fun a => (ContextService.getContext a, a)) amb
          = (b, amb))
    ∧ (∀ (outerBag innerBag : HMap) (amb : Amb),
        ContextService.runWithContext outerBag (fun a1 =>
          let before := ContextService.getContext a1
          let inner := ContextService.runWithContext innerBag
            (fun a2 => (ContextService.getContext a2, a2)) a1
          let after := ContextService.getContext inner.2
          ((before, inner.1, after), inner.2)) amb
          = ((outerBag, innerBag, outerBag), amb)) := by
  constructor <;> intros <;> rfl

/-- C2: in any cooperative interleaving of tasks, each spawned inside a
Context Store scope, every resumption of a task observes exactly the bag of
the scope it started with, never a binding left ambient by an unrelated
task: every observation in the trace of any schedule equals the spawn-time
bag of the observing task. -/
theorem contextService_scope_isolation
    (bags : List HMap) (cur : Amb) (sched : List Nat) (i : Nat) (b : HMap)
    (hmem : (i, b) ∈ schedRun cur (bags.map spawnInScope) sched) :
    bags[i]? = some b := by
  induction sched generalizing cur with
  | nil => simp [schedRun] at hmem
  | cons j rest ih =>
    rw [schedRun] at hmem
    cases htask : (bags.map spawnInScope)[j]? with
    | none =>
      rw [htask] at hmem
      exact ih _ hmem
    | some t =>
      rw [htask] at hmem
      rcases List.mem_cons.1 hmem with heq | hmem'
      · obtain ⟨hi, hb⟩ := Prod.mk.injEq .. ▸ heq
        subst hi
        rw [List.getElem?_map] at htask
        rcases Option.map_eq_some'.1 htask with ⟨bag, hbag, hspawn⟩
        rw [hbag]
        subst hspawn
        subst hb
        rfl
      · exact ih _ hmem'

/-- Closed instance of C2: two tasks spawned in scopes A and B, interleaved
as 0,1,0; the first observation of task 0 is the bag of scope A. -/
theorem contextService_scope_isolation_witness :
    ([[("tenantId", "A")], [("tenantId", "B")]] : List HMap)[0]? = some [("tenantId", "A")] :=
  contextService_scope_isolation [[("tenantId", "A")], [("tenantId", "B")]] none
    [0, 1, 0] 0 [("tenantId", "A")] (by decide)

/-- C10: getContext called outside any scope never throws (it is total) and
returns an empty object with no fields, which as a JS object is truthy, so
absence of a scope is not detectable by a falsy check on the result. -/
theorem contextService_getContext_outside_scope :
    ContextService.getContext none = []
    ∧ (∀ k : String, hget (ContextService.getContext none) k = none)
    ∧ jsObjectTruthy (ContextService.getContext none) = true :=
  ⟨rfl, fun _ => rfl, rfl⟩

/-- C3: the Inbound Boundary Processor resolves transactionId as the header
value at the table transactionId entry when present and non-empty, else as
the (non-empty) freshly generated identifier; the resolved value is written
back onto the inbound request headers and, when the response object supports
header mutation, echoed onto the response at the same header name; the same
policy applies independently to sessionId. -/
theorem contextMiddleware_use_resolves_and_echoes
    (table reqHeaders0 resHeaders0 : HMap) (resSupportsHeader : Bool)
    (freshTxn freshSess freshInternal : String) (r : MiddlewareResult)
    (hft : freshTxn ≠ "") (hfs : freshSess ≠ "")
    (hdist : tableName table "transactionId" ≠ tableName table "sessionId")
    (hr : r = ContextMiddleware.use table reqHeaders0 resSupportsHeader resHeaders0
        freshTxn freshSess freshInternal) :
    (∀ s, hget reqHeaders0 (tableName table "transactionId") = some s → s ≠ "" →
        r.transactionId = s)
    ∧ (jsTruthy (hget reqHeaders0 (tableName table "transactionId")) = false →
        r.transactionId = freshTxn)
    ∧ r.transactionId ≠ ""
    ∧ hget r.reqHeaders (tableName table "transactionId") = some r.transactionId
    ∧ (resSupportsHeader = true →
        hget r.resHeaders (tableName table "transactionId") = some r.transactionId)
    ∧ (∀ s, hget reqHeaders0 (tableName table "sessionId") = some s → s ≠ "" →
        r.sessionId = s)
    ∧ (jsTruthy (hget reqHeaders0 (tableName table "sessionId")) = false →
        r.sessionId = freshSess)
    ∧ r.sessionId ≠ ""
    ∧ hget r.reqHeaders (tableName table "sessionId") = some r.sessionId
    ∧ (resSupportsHeader = true →
        hget r.resHeaders (tableName table "sessionId") = some r.sessionId) := by
  subst hr
  simp only [ContextMiddleware.use]
  refine ⟨?_, ?_, ?_, ?_, ?_, ?_, ?_, ?_, ?_, ?_⟩
  · intro s hs hss
    simp [extractOr, hs, hss]
  · intro hfalse
    simp only [extractOr]
    cases hv : hget reqHeaders0 (tableName table "transactionId") with
    | none => rfl
    | some s =>
      rw [hv] at hfalse
      simp [jsTruthy] at hfalse
      simp [hfalse]
  · simp only [extractOr]
    cases hv : hget reqHeaders0 (tableName table "transactionId") with
    | none => exact hft
    | some s =>
      by_cases hs : s = "" <;> simp [hs, hft]
  · rw [hget_hset, if_neg (Ne.symm hdist), hget_hset, if_pos rfl]
  · intro hsup
    rw [hsup, if_pos rfl, hget_hset, if_neg (Ne.symm hdist), hget_hset, if_pos rfl]
  · intro s hs hss
    simp [extractOr, hs, hss]
  · intro hfalse
    simp only [extractOr]
    cases hv : hget reqHeaders0 (tableName table "sessionId") with
    | none => rfl
    | some s =>
      rw [hv] at hfalse
      simp [jsTruthy] at hfalse
      simp [hfalse]
  · simp only [extractOr]
    cases hv : hget reqHeaders0 (tableName table "sessionId") with
    | none => exact hfs
    | some s =>
      by_cases hs : s = "" <;> simp [hs, hfs]
  · rw [hget_hset, if_pos rfl]
  · intro hsup
    rw [hsup, if_pos rfl, hget_hset, if_pos rfl]

/-- Closed instance of C3: with the default table, an inbound x-transaction-id
header is adopted, a missing x-session-id is replaced by the fresh identifier,
and the resolved transaction id is echoed onto the response. -/
theorem contextMiddleware_use_resolves_and_echoes_witness :
    (ContextMiddleware.use DEFAULT_HEADER_NAMES [("x-transaction-id", "trans")] true []
        "fresh-txn" "fresh-sess" "fresh-int").transactionId = "trans"
    ∧ (ContextMiddleware.use DEFAULT_HEADER_NAMES [("x-transaction-id", "trans")] true []
        "fresh-txn" "fresh-sess" "fresh-int").sessionId = "fresh-sess"
    ∧ hget (ContextMiddleware.use DEFAULT_HEADER_NAMES [("x-transaction-id", "trans")] true []
          "fresh-txn" "fresh-sess" "fresh-int").resHeaders
        (tableName DEFAULT_HEADER_NAMES "transactionId")
      = some (ContextMiddleware.use DEFAULT_HEADER_NAMES [("x-transaction-id", "trans")] true []
          "fresh-txn" "fresh-sess" "fresh-int").transactionId :=
  have h := contextMiddleware_use_resolves_and_echoes DEFAULT_HEADER_NAMES
    [("x-transaction-id", "trans")] [] true "fresh-txn" "fresh-sess" "fresh-int"
    _ (by decide) (by decide) (by decide) rfl
  ⟨h.1 "trans" (by decide) (by decide), h.2.2.2.2.2.2.1 (by decide), h.2.2.2.2.1 rfl⟩

/-- Refutation of C4 as stated: under a header-name configuration that maps
the internalTransactionId field to a header, the extraction loop overwrites
the freshly generated identifier with the inbound header value, so the bag
carries the header value and not the fresh identifier. -/
theorem contextMiddleware_internalTransactionId_counterexample :
    hget (ContextMiddleware.use
        (getContextHeaderNames [("internalTransactionId", "x-internal-transaction-id")])
        [("x-internal-transaction-id", "evil")] false []
        "fresh-txn" "fresh-sess" "fresh-int").contextInfo "internalTransactionId"
      = some "evil"
    ∧ hget (ContextMiddleware.use
        (getContextHeaderNames [("internalTransactionId", "x-internal-transaction-id")])
        [("x-internal-transaction-id", "evil")] false []
        "fresh-txn" "fresh-sess" "fresh-int").contextInfo "internalTransactionId"
      ≠ some "fresh-int" := by decide

/-- C4 (amended): for every header-name configuration whose resulting table
has no internalTransactionId entry (the default and any configuration that
does not itself map internalTransactionId), the internalTransactionId of the
produced bag is exactly the freshly generated identifier, never a header
value. -/
theorem contextMiddleware_internalTransactionId_fresh
    (table reqHeaders0 resHeaders0 : HMap) (resSupportsHeader : Bool)
    (freshTxn freshSess freshInternal : String)
    (hnone : hget table "internalTransactionId" = none) :
    hget (ContextMiddleware.use table reqHeaders0 resSupportsHeader resHeaders0
        freshTxn freshSess freshInternal).contextInfo "internalTransactionId"
      = some freshInternal := by
  simp only [ContextMiddleware.use, ContextMiddleware.createContextInfo]
  rw [contextInfoLoop_hget_of_none _ hnone]
  simp [hget]

/-- Closed instance of C4 (amended): with the default table the bag carries
the fresh internal transaction id even when a same-named header is inbound. -/
theorem contextMiddleware_internalTransactionId_fresh_witness :
    hget (ContextMiddleware.use DEFAULT_HEADER_NAMES
        [("x-internal-transaction-id", "evil")] false []
        "fresh-txn" "fresh-sess" "fresh-int").contextInfo "internalTransactionId"
      = some "fresh-int" :=
  contextMiddleware_internalTransactionId_fresh DEFAULT_HEADER_NAMES
    [("x-internal-transaction-id", "evil")] [] false
    "fresh-txn" "fresh-sess" "fresh-int" (by decide)

/-- Refutation of C5 as stated: a field that is present in the bag but holds
the empty string is non-absent, yet the truthiness check of the interceptor
skips it, so no header is attached for it. -/
theorem httpClient_present_empty_field_counterexample :
    hget [("projectId", "")] "projectId" = some ""
    ∧ hget ((HttpClientService.getHttpClient (some [("projectId", "")]) true none).send
        DEFAULT_HEADER_NAMES none []) "x-project-id" = none := by decide

/-- C5 (amended): with inter-service communication enabled, every field of
the resolved bag that is present with a non-empty value and has a table
entry is sent as the corresponding header with that value; a field absent
from the bag leaves its header unset (given it was not already on the
request); the enabled client injects exactly from the bag resolved at
creation; a disabled client attaches zero context headers and never reads
the Context Store. -/
theorem httpClient_header_injection :
    (∀ (table bag headers0 : HMap) (k hname s : String),
        (table.map Prod.snd).Nodup →
        hget table k = some hname →
        hget bag k = some s → s ≠ "" →
        hget (injectHeaders bag table headers0) hname = some s)
    ∧ (∀ (table bag headers0 : HMap) (k hname : String),
        (table.map Prod.snd).Nodup →
        hget table k = some hname →
        hget bag k = none → hget headers0 hname = none →
        hget (injectHeaders bag table headers0) hname = none)
    ∧ (∀ (bag table headers0 : HMap) (ambCreate ambSend : Amb),
        (HttpClientService.getHttpClient (some bag) true ambCreate).send table ambSend headers0
          = injectHeaders bag table headers0)
    ∧ (∀ (contextInfo : Option HMap) (table headers0 : HMap) (ambCreate ambSend : Amb),
        (HttpClientService.getHttpClient contextInfo false ambCreate).send table ambSend headers0
          = headers0
        ∧ (HttpClientService.getHttpClient contextInfo false ambCreate).contextReadOccurred
          = false) := by
  refine ⟨?_, ?_, ?_, ?_⟩
  · intro table bag headers0 k hname s hnodup ht hb hs
    exact injectHeaders_hget_present bag headers0 hnodup ht hb hs
  · intro table bag headers0 k hname hnodup ht hb h0
    rw [injectHeaders_hget_absent bag headers0 hnodup ht hb]
    exact h0
  · intro bag table headers0 ambCreate ambSend
    rfl
  · intro contextInfo table headers0 ambCreate ambSend
    exact ⟨rfl, rfl⟩

/-- Closed instance of C5 (amended): present fields become headers with
matching values, the absent projectId attaches no x-project-id header, and a
disabled client leaves the request headers untouched without reading the
store. -/
theorem httpClient_header_injection_witness :
    hget (injectHeaders [("transactionId", "123456"), ("tenantId", "2")]
        DEFAULT_HEADER_NAMES []) "x-transaction-id" = some "123456"
    ∧ hget (injectHeaders [("transactionId", "123456"), ("tenantId", "2")]
        DEFAULT_HEADER_NAMES []) "x-project-id" = none
    ∧ (HttpClientService.getHttpClient none false (ambWith [("tenantId", "t")])).send
        DEFAULT_HEADER_NAMES none [("accept", "json")] = [("accept", "json")]
    ∧ (HttpClientService.getHttpClient none false (ambWith [("tenantId", "t")])).contextReadOccurred
      = false :=
  ⟨httpClient_header_injection.1 DEFAULT_HEADER_NAMES
      [("transactionId", "123456"), ("tenantId", "2")] [] "transactionId" "x-transaction-id"
      "123456" (by decide) (by decide) (by decide) (by decide),
   httpClient_header_injection.2.1 DEFAULT_HEADER_NAMES
      [("transactionId", "123456"), ("tenantId", "2")] [] "projectId" "x-project-id"
      (by decide) (by decide) (by decide) (by decide),
   (httpClient_header_injection.2.2.2 none DEFAULT_HEADER_NAMES [("accept", "json")]
      (ambWith [("tenantId", "t")]) none).1,
   (httpClient_header_injection.2.2.2 none DEFAULT_HEADER_NAMES [("accept", "json")]
      (ambWith [("tenantId", "t")]) none).2⟩

/-- Refutation of C6 as stated: the bag is resolved when getHttpClient is
called, not at request-send time; a client created while scope A is ambient
and used while scope B is ambient carries the bag of A, while the claimed
send-time policy would carry B. -/
theorem httpClient_send_time_resolution_counterexample :
    hget ((HttpClientService.getHttpClient none true
          (ambWith [("transactionId", "txn-at-create")])).send
        DEFAULT_HEADER_NAMES (ambWith [("transactionId", "txn-at-send")]) [])
        "x-transaction-id"
      = some "txn-at-create"
    ∧ hget (sendHeadersClaimedSendTime DEFAULT_HEADER_NAMES none
        (ambWith [("transactionId", "txn-at-send")]) []) "x-transaction-id"
      = some "txn-at-send"
    ∧ (HttpClientService.getHttpClient none true
          (ambWith [("transactionId", "txn-at-create")])).send
        DEFAULT_HEADER_NAMES (ambWith [("transactionId", "txn-at-send")]) []
      ≠ sendHeadersClaimedSendTime DEFAULT_HEADER_NAMES none
        (ambWith [("transactionId", "txn-at-send")]) [] := by decide

/-- C6 (amended): when inter-service communication is enabled the bag is
resolved at client-creation time, an explicitly supplied bag taking
precedence over the scope ambient at the getHttpClient call; every request
sent through the client carries that creation-time bag, whatever is ambient
at send time, and supplying an explicit bag never reads the store. -/
theorem httpClient_creation_time_resolution :
    (∀ (bag table headers0 : HMap) (ambCreate ambSend : Amb),
        (HttpClientService.getHttpClient (some bag) true ambCreate).send table ambSend headers0
          = injectHeaders bag table headers0)
    ∧ (∀ (table headers0 : HMap) (ambCreate ambSend : Amb),
        (HttpClientService.getHttpClient none true ambCreate).send table ambSend headers0
          = injectHeaders (ContextService.getContext ambCreate) table headers0)
    ∧ (∀ (bag : HMap) (ambCreate : Amb),
        (HttpClientService.getHttpClient (some bag) true ambCreate).contextReadOccurred
          = false) :=
  ⟨fun _ _ _ _ _ => rfl, fun _ _ _ _ => rfl, fun _ _ => rfl⟩

/-- Refutation of C7 as stated: a failed call that produced no response (for
example a connection reset) is re-surfaced as the original error object with
its request body intact, not stripped and not replaced by the redaction
marker. -/
theorem handleAxiosError_no_response_counterexample :
    HttpClientService.handleAxiosError
        { code := some "ECONNRESET", status := none, message := "socket hang up",
          name := "Error", stack := none,
          config := some { url := some "http://internal.example/charge",
                           method := some "post", headers := [],
                           data := some "cardNumber=4111111111111111" },
          response := none }
      = HandlerOutcome.rejectOriginal
        { code := some "ECONNRESET", status := none, message := "socket hang up",
          name := "Error", stack := none,
          config := some { url := some "http://internal.example/charge",
                           method := some "post", headers := [],
                           data := some "cardNumber=4111111111111111" },
          response := none }
    ∧ "cardNumber=4111111111111111" ≠ "<REDACTED>" := by decide

/-- C7 (amended): every failed call whose request URL the handler can parse
is re-surfaced to the caller as a rejection, never a success: when a
response is present the delivered value is the sanitized object that keeps a
fixed subset of the error fields and replaces the request body with the
redaction marker; when no response is present the original error is
delivered unchanged except that its status field is overwritten with the
absent response status, its body left unredacted. -/
theorem handleAxiosError_resurfaces
    (e : AxiosError)
    (hurl : urlIsParsable ((e.config.bind AxiosConfig.url).getD "") = true) :
    (∀ r, e.response = some r →
      HttpClientService.handleAxiosError e = HandlerOutcome.rejectSanitized
        { code := e.code
          status := some r.status
          message := e.message
          name := e.name
          stack := e.stack
          config :=
            { url := e.config.bind AxiosConfig.url
              method := e.config.bind AxiosConfig.method
              headers := e.config.map AxiosConfig.headers
              data := "<REDACTED>" }
          response :=
            { config :=
                { url := r.config.url
                  method := r.config.method
                  headers := r.config.headers }
              status := r.status
              statusText := r.statusText
              headers := r.headers
              data := r.data } })
    ∧ (e.response = none →
      HttpClientService.handleAxiosError e
        = HandlerOutcome.rejectOriginal { e with status := none }) := by
  constructor
  · intro r hres
    simp [HttpClientService.handleAxiosError, hurl, hres]
  · intro hres
    simp [HttpClientService.handleAxiosError, hurl, hres]

/-- Closed instance of C7 (amended): a 500 failure with a response is
delivered as the sanitized object with the request body redacted. -/
theorem handleAxiosError_resurfaces_witness :
    HttpClientService.handleAxiosError
        { code := none, status := some 500, message := "Request failed",
          name := "AxiosError", stack := none,
          config := some { url := some "http://svc.local/x", method := some "get",
                           headers := [], data := some "payload" },
          response := some { config := { url := some "http://svc.local/x",
                                         method := some "get", headers := [],
                                         data := some "payload" },
                             status := 500, statusText := "Internal Server Error",
                             headers := [], data := some "boom" } }
      = HandlerOutcome.rejectSanitized
        { code := none, status := some 500, message := "Request failed",
          name := "AxiosError", stack := none,
          config := { url := some "http://svc.local/x", method := some "get",
                      headers := some [], data := "<REDACTED>" },
          response := { config := { url := some "http://svc.local/x",
                                    method := some "get", headers := [] },
                        status := 500, statusText := "Internal Server Error",
                        headers := [], data := some "boom" } } :=
  (handleAxiosError_resurfaces _ (by decide)).1 _ rfl

/-- Refutation of C8 as stated: the fixed default table has five entries and
no entry for the sixth standard IdentityBag field internalTransactionId. -/
theorem defaultHeaderNames_missing_internal_counterexample :
    hget DEFAULT_HEADER_NAMES "internalTransactionId" = none
    ∧ DEFAULT_HEADER_NAMES.length = 5 := by decide

/-- C8 (amended): the HeaderNameTable is the fixed default table overlaid
with the configured mapping, the overlay shallow and a total replacement per
key (a configured key wins outright, otherwise the default applies); the
default table has entries for exactly the five wire-mapped standard fields
and none for internalTransactionId. -/
theorem getContextHeaderNames_overlay_spec :
    (∀ (configHeaderNames : HMap) (k : String),
        hget (getContextHeaderNames configHeaderNames) k
          = (hget configHeaderNames k).elim (hget DEFAULT_HEADER_NAMES k) some)
    ∧ hget DEFAULT_HEADER_NAMES "transactionId" = some "x-transaction-id"
    ∧ hget DEFAULT_HEADER_NAMES "sessionId" = some "x-session-id"
    ∧ hget DEFAULT_HEADER_NAMES "userId" = some "x-user-id"
    ∧ hget DEFAULT_HEADER_NAMES "tenantId" = some "x-tenant-id"
    ∧ hget DEFAULT_HEADER_NAMES "projectId" = some "x-project-id"
    ∧ hget DEFAULT_HEADER_NAMES "internalTransactionId" = none :=
  ⟨fun cfg k => hget_overlay DEFAULT_HEADER_NAMES cfg k,
   by decide, by decide, by decide, by decide, by decide, by decide⟩

/-- C9: evaluated at the failing input (no ambient scope), the schedule
wrapper runs every firing with the empty bag: getContext returns the empty
object, which is truthy, so the placeholder branch never executes and the
callback observes a bag with no tenantId and no sentinel values. -/
theorem cronService_schedule_no_scope_empty_bag :
    CronService.schedule none "fresh-txn" "fresh-int" = []
    ∧ hget (CronService.schedule none "fresh-txn" "fresh-int") "tenantId" = none
    ∧ ContextService.runWithContext (CronService.schedule none "fresh-txn" "fresh-int")
        (fun a => (ContextService.getContext a, a)) none
      = ([], none)
    ∧ CronService.schedule none "fresh-txn" "fresh-int"
      ≠ cronPlaceholderBag "fresh-txn" "fresh-int" := by decide
